import Mathlib

/-!
Shallow embedding of the core of the Road-to-React repository
(`src/App.js` and the earlier revision kept alongside it):

* the `storiesReducer` that folds fetch outcomes and story removal into a
  single `ResultState`;
* the `useSemiPersistentState` hook, split into its two effects: the
  initial read `localStorage.getItem(key) || initialState` and the
  write-back `localStorage.setItem(key, value)`, with the browser's
  origin-local store modelled as an association list;
* the client-side filter `searchedStories` that keeps the stories whose
  title contains the search term as a case-insensitive substring.
-/

namespace RoadToReact

/-- A story as received from the search API (`src/App.js`): title, url and
author strings, comment and point counts, and the identifying `objectID`. -/
structure Story where
  title : String
  url : String
  author : String
  numComments : Int
  points : Int
  objectID : Nat
deriving DecidableEq, Repr

/-- The reducer-owned state `{ data, isLoading, isError }` of `src/App.js`. -/
structure ResultState where
  data : List Story
  isLoading : Bool
  isError : Bool
deriving DecidableEq, Repr

/-- The actions dispatched to `storiesReducer` in `src/App.js`.  The four
recognised tags carry exactly the payloads the dispatch sites construct
(`STORIES_FETCH_SUCCESS` a list of stories, `REMOVE_STORY` one story,
the other two none); `other ty` stands for an action whose `type` string
`ty` is none of the four recognised tags, reaching the switch's `default`
branch. -/
inductive Action where
  | storiesFetchInit : Action
  | storiesFetchSuccess : List Story → Action
  | storiesFetchFailure : Action
  | removeStory : Story → Action
  | other : String → Action
deriving DecidableEq, Repr

/-- The `type` string of an action, as carried by the JS action object. -/
def Action.type : Action → String
  | .storiesFetchInit => "STORIES_FETCH_INIT"
  | .storiesFetchSuccess _ => "STORIES_FETCH_SUCCESS"
  | .storiesFetchFailure => "STORIES_FETCH_FAILURE"
  | .removeStory _ => "REMOVE_STORY"
  | .other ty => ty

/-- `storiesReducer` from `src/App.js` lines 29–60.  The `default` branch
of the switch does `throw new Error()`, modelled as `Except.error ()`. -/
def storiesReducer (state : ResultState) : Action → Except Unit ResultState
  | .storiesFetchInit =>
      .ok { state with isLoading := true, isError := false }
  | .storiesFetchSuccess payload =>
      .ok { state with isLoading := false, isError := false, data := payload }
  | .storiesFetchFailure =>
      .ok { state with isLoading := false, isError := true }
  | .removeStory payload =>
      .ok { state with
            data := state.data.filter
              (fun story => payload.objectID != story.objectID) }
  | .other _ => .error ()

/-- The initial reducer state `{ data: [], isLoading: false, isError: false }`
passed to `useReducer` in `src/App.js` line 73. -/
def initialStoriesState : ResultState :=
  { data := [], isLoading := false, isError := false }

/-- Dispatching a sequence of actions one after the other; an action that
makes the reducer throw aborts the run. -/
def runActions (state : ResultState) : List Action → Except Unit ResultState
  | [] => .ok state
  | a :: rest =>
      match storiesReducer state a with
      | .ok state' => runActions state' rest
      | .error e => .error e

/-- The browser's origin-local durable store: a finite map from key strings
to value strings, modelled as an association list without duplicate keys
by construction of `setItem`. -/
def LocalStorage : Type := List (String × String)

/-- `localStorage.getItem(key)`: the stored value, or `none` when the slot
is absent (JS returns `null`). -/
def getItem : LocalStorage → String → Option String
  | [], _ => none
  | (k, v) :: rest, key => if k == key then some v else getItem rest key

/-- `localStorage.setItem(key, value)`: overwrite the slot for `key`, or
append a fresh slot when `key` is absent. -/
def setItem : LocalStorage → String → String → LocalStorage
  | [], key, value => [(key, value)]
  | (k, v) :: rest, key, value =>
      if k == key then (k, value) :: rest else (k, v) :: setItem rest key value

/-- The JS expression `x || d` specialised to a possibly-null string `x`:
`null` and the empty string are falsy, every other string is truthy. -/
def jsOrElse (x : Option String) (d : String) : String :=
  match x with
  | none => d
  | some v => if v == "" then d else v

/-- The initial value computed by `useSemiPersistentState` in `src/App.js`
lines 13–15: `localStorage.getItem(key) || initialState`. -/
def useSemiPersistentState (store : LocalStorage) (key initialState : String) :
    String :=
  jsOrElse (getItem store key) initialState

/-- The write-back effect of `useSemiPersistentState` (`src/App.js` lines
19–22): whenever the bound value changes (and at initialisation),
`localStorage.setItem(key, value)`. -/
def useSemiPersistentStateEffect (store : LocalStorage) (key value : String) :
    LocalStorage :=
  setItem store key value

/-- Does the character list `s` start with `pat`?  Auxiliary for the JS
`String.prototype.includes` check used by `searchedStories`. -/
def startsWithB : List Char → List Char → Bool
  | [], _ => true
  | _ :: _, [] => false
  | p :: ps, c :: cs => p == c && startsWithB ps cs

/-- Does `pat` occur contiguously somewhere in `s`?  Executable model of
JS `s.includes(pat)` on the underlying character lists. -/
def includesB (pat : List Char) : List Char → Bool
  | [] => startsWithB pat []
  | c :: cs => startsWithB pat (c :: cs) || includesB pat cs

/-- JS `s.toLowerCase()`, modelled characterwise. -/
def jsToLowerCase (s : String) : String :=
  ⟨s.data.map Char.toLower⟩

/-- JS `s.includes(pat)` on strings. -/
def jsIncludes (s pat : String) : Bool :=
  includesB pat.data s.data

/-- `searchedStories` from the earlier revision (`src/unnamed/part_000`
lines 46–48): keep the stories whose lowercased title includes the
lowercased search term. -/
def searchedStories (stories : List Story) (searchTerm : String) :
    List Story :=
  stories.filter (fun story =>
    jsIncludes (jsToLowerCase story.title) (jsToLowerCase searchTerm))

/-- `pat` occurs as a contiguous substring of `s`: the specification-side
statement of substring containment. -/
def Substr (pat s : List Char) : Prop :=
  ∃ l r, s = l ++ pat ++ r

/-- The states reachable from the initial reducer state by dispatching
actions that the reducer accepts (the `other` branch throws, so exactly
the four recognised tags can take a step). -/
inductive Reachable : ResultState → Prop
  | init : Reachable initialStoriesState
  | step {s s' : ResultState} {a : Action} :
      Reachable s → storiesReducer s a = .ok s' → Reachable s'

/-- The story list hard-coded in the earlier revision
(`src/unnamed/part_000` lines 21–38), first entry. -/
def storyReact : Story :=
  { title := "React", url := "https://reactjs.org/", author := "Jordan Walke",
    numComments := 3, points := 4, objectID := 0 }

/-- The story list hard-coded in the earlier revision
(`src/unnamed/part_000` lines 21–38), second entry. -/
def storyRedux : Story :=
  { title := "Redux", url := "https://redux.js.org/",
    author := "Dan Abramov, Andrew Clark",
    numComments := 2, points := 5, objectID := 1 }

/-- The `stories` constant of the earlier revision. -/
def stories : List Story := [storyReact, storyRedux]

/-- Silently writing then reading the same key yields the written value,
whatever the store held before. -/
theorem getItem_setItem (store : LocalStorage) (key value : String) :
    getItem (setItem store key value) key = some value := by
  induction store with
  | nil => simp [setItem, getItem]
  | cons kv rest ih =>
      obtain ⟨k, v⟩ := kv
      by_cases h : k == key
      · simp [setItem, getItem, h]
      · simp only [setItem, h, Bool.false_eq_true, if_false, getItem, ih]

/-- Claim C2: for every prior state and every payload,
`STORIES_FETCH_SUCCESS` yields `isLoading = false`, `isError = false`, and
`data` strictly equal to the dispatched payload — the payload replaces
`data` entirely. -/
theorem storiesFetchSuccess_replaces_data
    (s : ResultState) (payload : List Story) :
    storiesReducer s (.storiesFetchSuccess payload) =
      .ok { data := payload, isLoading := false, isError := false } := rfl

/-- Claim C3: for every prior state, `STORIES_FETCH_FAILURE` yields
`isLoading = false`, `isError = true`, and leaves `data` exactly equal to
the prior state's `data`. -/
theorem storiesFetchFailure_keeps_data (s : ResultState) :
    storiesReducer s .storiesFetchFailure =
      .ok { data := s.data, isLoading := false, isError := true } := rfl

/-- Claim C4: for every prior state, `STORIES_FETCH_INIT` yields
`isLoading = true`, `isError = false`, whatever the prior flags were, and
leaves `data` unchanged — existing data is not cleared. -/
theorem storiesFetchInit_keeps_data (s : ResultState) :
    storiesReducer s .storiesFetchInit =
      .ok { data := s.data, isLoading := true, isError := false } := rfl

/-- Claim C7: for every state and every action whose `type` string is not
one of the four recognised tags (for example `"FOO"`), the reducer throws
unconditionally instead of silently returning the state. -/
theorem unrecognised_action_throws (s : ResultState) (ty : String)
    (h : ty ∉ ["STORIES_FETCH_INIT", "STORIES_FETCH_SUCCESS",
               "STORIES_FETCH_FAILURE", "REMOVE_STORY"]) :
    Action.type (.other ty) = ty ∧
      storiesReducer s (.other ty) = .error () :=
  ⟨rfl, rfl⟩

/-- Witness for claim C7 at the unknown action type `"FOO"` of the spec's
scenario. -/
theorem unrecognised_action_throws_witness :
    Action.type (.other "FOO") = "FOO" ∧
      storiesReducer initialStoriesState (.other "FOO") = .error () :=
  unrecognised_action_throws initialStoriesState "FOO" (by decide)

/-- Claim C5: `REMOVE_STORY` filters out of `data` the entries whose
`objectID` equals the payload's (the single matching element, `objectID`
being the identity key), leaves `isLoading` and `isError` untouched, is a
no-op on the whole state when nothing matches — so dispatching it twice
with the same non-existent `objectID` is a no-op both times — and on
`{data := [A, B]}` with `A`'s `objectID` it yields `{data := [B]}` with
the flags unchanged. -/
theorem removeStory_spec :
    (∀ (s : ResultState) (item : Story),
      storiesReducer s (.removeStory item) =
        .ok { s with
              data := s.data.filter
                (fun st => item.objectID != st.objectID) }) ∧
    (∀ (s : ResultState) (item : Story),
      (∀ st ∈ s.data, st.objectID ≠ item.objectID) →
      storiesReducer s (.removeStory item) = .ok s) ∧
    (∀ (s : ResultState) (item : Story),
      (∀ st ∈ s.data, st.objectID ≠ item.objectID) →
      runActions s [.removeStory item, .removeStory item] = .ok s) ∧
    (∀ A B : Story, A.objectID ≠ B.objectID →
      storiesReducer { data := [A, B], isLoading := false, isError := false }
          (.removeStory A) =
        .ok { data := [B], isLoading := false, isError := false }) := by
  have hnoop : ∀ (s : ResultState) (item : Story),
      (∀ st ∈ s.data, st.objectID ≠ item.objectID) →
      storiesReducer s (.removeStory item) = .ok s := by
    intro s item hmiss
    have hdata : s.data.filter (fun st => item.objectID != st.objectID) =
        s.data := by
      apply List.filter_eq_self.mpr
      intro st hst
      exact bne_iff_ne.mpr (Ne.symm (hmiss st hst))
    simp [storiesReducer, hdata]
  refine ⟨fun s item => rfl, hnoop, ?_, ?_⟩
  · intro s item hmiss
    simp [runActions, hnoop s item hmiss]
  · intro A B hAB
    have hA : (A.objectID != A.objectID) = false := by simp
    have hB : (A.objectID != B.objectID) = true := bne_iff_ne.mpr hAB
    simp [storiesReducer, List.filter, hA, hB]

/-- Claim C1: dispatching any sequence of `REMOVE_STORY` actions leaves
exactly the stories whose `objectID` is outside the union of the removed
`objectID`s, in their original relative order (the result is a filter of
the initial `data`), and the flags come through untouched. -/
theorem removeStory_sequence (s : ResultState) (items : List Story) :
    runActions s (items.map Action.removeStory) =
      .ok { s with
            data := s.data.filter
              (fun st => !((items.map Story.objectID).contains st.objectID)) } := by
  induction items generalizing s with
  | nil =>
      have hid : s.data.filter
          (fun st => !((([] : List Story).map Story.objectID).contains
            st.objectID)) = s.data := by
        simp
      simp [runActions, hid]
  | cons i rest ih =>
      simp only [List.map_cons, runActions, storiesReducer]
      rw [ih]
      have hdata :
          (s.data.filter (fun st => i.objectID != st.objectID)).filter
              (fun st => !((rest.map Story.objectID).contains st.objectID)) =
            s.data.filter
              (fun st => !(((i :: rest).map Story.objectID).contains
                st.objectID)) := by
        rw [List.filter_filter]
        apply List.filter_congr
        intro x hx
        rw [List.map_cons, List.contains_cons, Bool.not_or, Bool.and_comm]
        have hbeq : (x.objectID == i.objectID) = (i.objectID == x.objectID) := by
          by_cases hxi : x.objectID = i.objectID
          · rw [hxi]
          · have h1 : (x.objectID == i.objectID) = false := by simpa using hxi
            have h2 : (i.objectID == x.objectID) = false := by
              simpa using (Ne.symm hxi)
            rw [h1, h2]
        rw [bne, hbeq]
      rw [hdata]
      rfl

/-- Witness for claim C5: the concrete two-story scenario with the sample
stories, and the double no-op at the empty initial state. -/
theorem removeStory_spec_witness :
    storiesReducer
        { data := [storyReact, storyRedux], isLoading := false,
          isError := false } (.removeStory storyReact) =
      .ok { data := [storyRedux], isLoading := false, isError := false } ∧
    runActions initialStoriesState
        [.removeStory storyReact, .removeStory storyReact] =
      .ok initialStoriesState :=
  ⟨removeStory_spec.2.2.2 storyReact storyRedux (by decide),
   removeStory_spec.2.2.1 initialStoriesState storyReact (by simp
     [initialStoriesState])⟩

/-- Claim C6: every state reachable from the initial
`{data: [], isLoading: false, isError: false}` by accepted actions never
has `isLoading` and `isError` both true; and per action, `data` changes
only through `STORIES_FETCH_SUCCESS` (replacement) or `REMOVE_STORY`
(filtering out the removed `objectID`), while `STORIES_FETCH_INIT` and
`STORIES_FETCH_FAILURE` leave `data` unchanged. -/
theorem reachable_invariant :
    (∀ s : ResultState, Reachable s →
      ¬(s.isLoading = true ∧ s.isError = true)) ∧
    (∀ s : ResultState,
      storiesReducer s .storiesFetchInit =
        .ok { s with isLoading := true, isError := false }) ∧
    (∀ s : ResultState,
      storiesReducer s .storiesFetchFailure =
        .ok { s with isLoading := false, isError := true }) ∧
    (∀ (s : ResultState) (payload : List Story),
      storiesReducer s (.storiesFetchSuccess payload) =
        .ok { s with
              isLoading := false, isError := false, data := payload }) ∧
    (∀ (s : ResultState) (item : Story),
      storiesReducer s (.removeStory item) =
        .ok { s with
              data := s.data.filter
                (fun st => item.objectID != st.objectID) }) := by
  refine ⟨?_, fun s => rfl, fun s => rfl, fun s payload => rfl,
    fun s item => rfl⟩
  intro s h
  induction h with
  | init => simp [initialStoriesState]
  | step hr hstep ih =>
      rename_i s₀ s₁ a
      cases a with
      | storiesFetchInit =>
          simp only [storiesReducer, Except.ok.injEq] at hstep
          rw [← hstep]
          simp
      | storiesFetchSuccess payload =>
          simp only [storiesReducer, Except.ok.injEq] at hstep
          rw [← hstep]
          simp
      | storiesFetchFailure =>
          simp only [storiesReducer, Except.ok.injEq] at hstep
          rw [← hstep]
          simp
      | removeStory item =>
          simp only [storiesReducer, Except.ok.injEq] at hstep
          rw [← hstep]
          simpa using ih
      | other ty =>
          simp [storiesReducer] at hstep

/-- Witness for claim C6 at the initial state, which is reachable by the
empty action sequence. -/
theorem reachable_invariant_witness :
    ¬(initialStoriesState.isLoading = true ∧
      initialStoriesState.isError = true) :=
  reachable_invariant.1 initialStoriesState Reachable.init

/-- Counterexample to claim C8 as stated: with the slot for `"search"`
present and holding the empty string, initialisation returns the supplied
default `"x"`, not the stored value `""` — so the default is not returned
only when the slot is absent. -/
theorem storedEmpty_returns_default_cex :
    getItem [("search", "")] "search" = some "" ∧
    useSemiPersistentState [("search", "")] "search" "x" = "x" ∧
    "x" ≠ "" := by
  refine ⟨rfl, rfl, ?_⟩
  decide

/-- Claim C8 as amended: initialisation returns the stored value when the
slot is present and non-empty; when the slot is absent — or holds the
empty string — it returns the supplied default.  In particular, with the
slot for `"search"` absent the store initialises to the default `""`, and
after the hook's effect writes `"redux"` the slot reads back `"redux"` and
the next initialisation returns `"redux"`. -/
theorem useSemiPersistentState_spec :
    (∀ (store : LocalStorage) (key d v : String),
      getItem store key = some v → v ≠ "" →
      useSemiPersistentState store key d = v) ∧
    (∀ (store : LocalStorage) (key d : String),
      getItem store key = none ∨ getItem store key = some "" →
      useSemiPersistentState store key d = d) ∧
    (∀ store : LocalStorage, getItem store "search" = none →
      useSemiPersistentState store "search" "" = "" ∧
      getItem (useSemiPersistentStateEffect store "search" "redux")
          "search" = some "redux" ∧
      useSemiPersistentState (useSemiPersistentStateEffect store "search"
          "redux") "search" "" = "redux") := by
  have hsome : ∀ (store : LocalStorage) (key d v : String),
      getItem store key = some v → v ≠ "" →
      useSemiPersistentState store key d = v := by
    intro store key d v hget hne
    have hbeq : (v == "") = false := by simpa using hne
    simp [useSemiPersistentState, jsOrElse, hget, hbeq]
  have hfalsy : ∀ (store : LocalStorage) (key d : String),
      getItem store key = none ∨ getItem store key = some "" →
      useSemiPersistentState store key d = d := by
    intro store key d hget
    cases hget with
    | inl hnone => simp [useSemiPersistentState, jsOrElse, hnone]
    | inr hempty => simp [useSemiPersistentState, jsOrElse, hempty]
  refine ⟨hsome, hfalsy, ?_⟩
  intro store hget
  have hwrite := getItem_setItem store "search" "redux"
  refine ⟨hfalsy store "search" "" (Or.inl hget), hwrite, ?_⟩
  exact hsome _ "search" "" "redux" hwrite (by decide)

/-- Witness for the amended claim C8 at the empty store, where the
`"search"` slot is absent. -/
theorem useSemiPersistentState_spec_witness :
    useSemiPersistentState [] "search" "" = "" ∧
    getItem (useSemiPersistentStateEffect [] "search" "redux") "search" =
      some "redux" ∧
    useSemiPersistentState (useSemiPersistentStateEffect [] "search"
        "redux") "search" "" = "redux" :=
  useSemiPersistentState_spec.2.2 [] rfl

/-- Claim C10: initialisation falls back to the supplied default whenever
the stored value is falsy — the slot is absent or holds the empty
string — not only when the slot is absent. -/
theorem falsy_stored_value_falls_back (store : LocalStorage)
    (key d : String)
    (h : getItem store key = none ∨ getItem store key = some "") :
    useSemiPersistentState store key d = d := by
  cases h with
  | inl hnone => simp [useSemiPersistentState, jsOrElse, hnone]
  | inr hempty => simp [useSemiPersistentState, jsOrElse, hempty]

/-- Witness for claim C10 at a store whose `"search"` slot holds the empty
string. -/
theorem falsy_stored_value_falls_back_witness :
    useSemiPersistentState [("search", "")] "search" "redux" = "redux" :=
  falsy_stored_value_falls_back [("search", "")] "search" "redux"
    (Or.inr rfl)

/-- `startsWithB` agrees with its specification: `s` starts with `pat`
exactly when `s` is `pat` followed by some remainder. -/
theorem startsWithB_iff (pat s : List Char) :
    startsWithB pat s = true ↔ ∃ r, s = pat ++ r := by
  induction pat generalizing s with
  | nil => simp [startsWithB]
  | cons p ps ih =>
      cases s with
      | nil => simp [startsWithB]
      | cons c cs =>
          simp only [startsWithB, Bool.and_eq_true, beq_iff_eq, ih]
          constructor
          · rintro ⟨rfl, r, rfl⟩
            exact ⟨r, rfl⟩
          · rintro ⟨r, h⟩
            obtain ⟨h1, h2⟩ := List.cons.inj h
            exact ⟨h1.symm, r, h2⟩

/-- `includesB` agrees with its specification: `pat` is found exactly when
it occurs as a contiguous substring. -/
theorem includesB_iff (pat s : List Char) :
    includesB pat s = true ↔ Substr pat s := by
  induction s with
  | nil =>
      simp only [includesB, startsWithB_iff, Substr]
      constructor
      · rintro ⟨r, h⟩
        exact ⟨[], r, by simpa using h⟩
      · rintro ⟨l, r, h⟩
        have h' := h.symm
        rw [List.append_eq_nil, List.append_eq_nil] at h'
        obtain ⟨⟨rfl, rfl⟩, rfl⟩ := h'
        exact ⟨[], rfl⟩
  | cons c cs ih =>
      simp only [includesB, Bool.or_eq_true, startsWithB_iff, ih, Substr]
      constructor
      · rintro (⟨r, h⟩ | ⟨l, r, h⟩)
        · exact ⟨[], r, by simpa using h⟩
        · exact ⟨c :: l, r, by simp [h]⟩
      · rintro ⟨l, r, h⟩
        cases l with
        | nil => exact Or.inl ⟨r, by simpa using h⟩
        | cons x xs =>
            obtain ⟨h1, h2⟩ := List.cons.inj h
            exact Or.inr ⟨xs, r, h2⟩

/-- Claim C9: the rendered list keeps exactly the stories whose title
contains the live search term as a case-insensitive contiguous substring,
and it is a sublist of the story list — the relative order is preserved
and nothing is added.  The filter is a pure function of the story list and
the term alone: it takes no store and no fetch state. -/
theorem searchedStories_spec :
    (∀ (sts : List Story) (searchTerm : String) (st : Story),
      st ∈ searchedStories sts searchTerm ↔
        st ∈ sts ∧
          Substr (jsToLowerCase searchTerm).data
            (jsToLowerCase st.title).data) ∧
    (∀ (sts : List Story) (searchTerm : String),
      List.Sublist (searchedStories sts searchTerm) sts) := by
  constructor
  · intro sts term st
    simp only [searchedStories, List.mem_filter, jsIncludes, includesB_iff]
  · intro sts term
    exact List.filter_sublist _

/-- Witness for claim C9: `"Redux"` matches the term `"ed"` on the sample
story list. -/
theorem searchedStories_spec_witness :
    storyRedux ∈ stories ∧
      Substr (jsToLowerCase "ed").data
        (jsToLowerCase storyRedux.title).data :=
  (searchedStories_spec.1 stories "ed" storyRedux).mp (by decide)

end RoadToReact
